import Mathlib

/-!
Verification of the autoblog-ai generation core.

This file gives a shallow embedding of the core logic of the repository:

* `isRetryableError`, `callClaudeAPIWithRetry` (internal/article/generator.go):
  the retry loop is embedded as a function over an environment recording, for
  each attempt index, the outcome of the single HTTP attempt and whether the
  context's cancellation signal fires during the backoff wait preceding it.
* `callClaudeAPI` (generator.go): embedded from the point where the HTTP
  response (status code and body) is available; the body is decoded with the
  model of `encoding/json.Unmarshal` below.
* `parseResponse` (generator.go): brace-span extraction plus JSON decoding.
  Go's `encoding/json.Unmarshal` is modelled by an executable JSON parser
  (`parseJVal` and friends) faithful to the scanner/decoder of the Go standard
  library at the level this program observes: syntax validation, string escape
  handling including surrogates, case-insensitive field matching, `null`
  no-ops, and rejection of trailing data.  Error message texts for JSON
  syntax/type errors are abbreviated (the program never inspects them); all
  error texts the program does inspect are reproduced verbatim.
* `SelectRandomTopic` (internal/config/config.go): the weighted walk, with the
  random draw `r` passed in as a parameter.
* the previous-titles loop of `Generate` (generator.go).

Go `string` values are modelled as Lean `String`/`List Char`; byte indices of
`strings.Index` become character indices, which agree on the ASCII brace
characters involved.  Machine integers stay within range in this program, so
`Int`/`Nat` are used directly.
-/

/-- Errors as the program observes them: the two context sentinel errors
(compared by identity in Go), plain `fmt.Errorf` errors, and wrapping
`fmt.Errorf("...: %w", err)` errors. -/
inductive GoError where
  | canceled
  | deadlineExceeded
  | errorf (msg : String)
  | wrap (pre : String) (inner : GoError)
deriving DecidableEq, Repr

/-- The `Error()` message of a `GoError`. -/
def GoError.message : GoError → String
  | .canceled => "context canceled"
  | .deadlineExceeded => "context deadline exceeded"
  | .errorf m => m
  | .wrap p e => p ++ e.message

/-- `strings.Contains s pat` (true iff `pat` occurs as a contiguous substring). -/
def containsSub (s pat : String) : Bool := decide (pat.toList <:+: s.toList)

/-- generator.go `isRetryableError`: context errors are never retryable;
otherwise retry iff the message indicates a 5xx status, a 429, a timeout or a
refused connection. -/
def isRetryableError (e : GoError) : Bool :=
  match e with
  | .canceled => false
  | .deadlineExceeded => false
  | _ =>
    containsSub e.message "status 5" || containsSub e.message "429" ||
      containsSub e.message "timeout" || containsSub e.message "connection refused"

/-- Environment of one `callClaudeAPIWithRetry` execution: for each attempt
index, the outcome `callClaudeAPI` would produce, and whether the context's
`Done` channel fires during the backoff wait preceding that attempt (with the
corresponding `ctx.Err()`). -/
structure RetryEnv where
  attemptResult : Nat → Except GoError String
  cancelDuring : Nat → Option GoError

/-- The value returned by `callClaudeAPIWithRetry`. -/
inductive RetryResult where
  | ok (response : String)
  | err (e : GoError)
deriving DecidableEq, Repr

/-- Result of the retry loop together with the backoff waits that completed
(in seconds, in order) and the number of API attempts actually made. -/
structure RetryTrace where
  result : RetryResult
  waits : List Nat
  attempts : Nat
deriving DecidableEq, Repr

/-- generator.go: `const maxRetries = 3`. -/
def maxRetries : Nat := 3

/-- The body of the `for attempt := range maxRetries` loop of
`callClaudeAPIWithRetry`, one constructor case per remaining iteration count.
Before attempts `1, 2, ...` the loop waits `2^attempt` seconds unless the
context is cancelled during the wait, in which case `ctx.Err()` is returned;
then the API is called; retryable failures continue the loop, others return
immediately.  When iterations run out the last error is wrapped as
`fmt.Errorf("max retries exceeded: %w", lastErr)`. -/
def retryGo (env : RetryEnv) : Nat → Nat → GoError → RetryTrace
  | 0, _, lastErr => ⟨.err (.wrap "max retries exceeded: " lastErr), [], 0⟩
  | fuel + 1, attempt, _lastErr =>
    if attempt = 0 then
      match env.attemptResult attempt with
      | .ok s => ⟨.ok s, [], 1⟩
      | .error e =>
        if isRetryableError e then
          let t := retryGo env fuel (attempt + 1) e
          ⟨t.result, t.waits, t.attempts + 1⟩
        else ⟨.err e, [], 1⟩
    else
      match env.cancelDuring attempt with
      | some ce => ⟨.err ce, [], 0⟩
      | none =>
        match env.attemptResult attempt with
        | .ok s => ⟨.ok s, [2 ^ attempt], 1⟩
        | .error e =>
          if isRetryableError e then
            let t := retryGo env fuel (attempt + 1) e
            ⟨t.result, 2 ^ attempt :: t.waits, t.attempts + 1⟩
          else ⟨.err e, [2 ^ attempt], 1⟩

/-- generator.go `callClaudeAPIWithRetry`: run the loop for `maxRetries`
iterations starting at attempt 0 (`lastErr` starts nil; the placeholder is
unreachable because `maxRetries > 0`). -/
def callClaudeAPIWithRetry (env : RetryEnv) : RetryTrace :=
  retryGo env maxRetries 0 (.errorf "")

/-- config.go `TopicConfig`, restricted to the fields `SelectRandomTopic`
reads. -/
structure TopicConfig where
  name : String
  weight : Int
deriving DecidableEq, Repr

/-- Weight normalization inside `SelectRandomTopic`: `if weight <= 0 { weight = 1 }`. -/
def normWeight (w : Int) : Int := if w ≤ 0 then 1 else w

/-- `totalWeight` as accumulated by the first loop of `SelectRandomTopic`. -/
def totalWeight (ts : List TopicConfig) : Int := (ts.map (fun t => normWeight t.weight)).sum

/-- The second loop of `SelectRandomTopic`: accumulate normalized weights into
`current` and return the first topic with `random < current`, `none` on
fallthrough. -/
def selectLoop (r : Int) : Int → List TopicConfig → Option String
  | _, [] => none
  | current, t :: ts =>
    let cur := current + normWeight t.weight
    if r < cur then some t.name else selectLoop r cur ts

/-- config.go `SelectRandomTopic`, with the drawn `random` value `r` passed as
a parameter (Go draws `r = rand.Intn(totalWeight)`).  On an empty topic list
the fixed fallback name is returned before any drawing; on loop fallthrough
`c.Topics[0].Name` is returned. -/
def SelectRandomTopic (ts : List TopicConfig) (r : Int) : String :=
  match ts with
  | [] => "Software Engineering Best Practices"
  | t0 :: _ => (selectLoop r 0 ts).getD t0.name

/-- Spec-side description of the walk: the list of topics paired with their
cumulative normalized weights, starting from accumulator `acc`. -/
def cumFrom (acc : Int) : List TopicConfig → List (String × Int)
  | [] => []
  | t :: ts => (t.name, acc + normWeight t.weight) :: cumFrom (acc + normWeight t.weight) ts

/-- Spec-side selector: the name of the first topic in list order whose
cumulative normalized weight exceeds `r`. -/
def firstExceeding (ts : List TopicConfig) (r : Int) : Option String :=
  ((cumFrom 0 ts).find? (fun p => r < p.2)).map (fun p => p.1)

/-- storage.go `ArticleRecord`, restricted to the fields the previous-titles
loop of `Generate` reads. -/
structure ArticleRecord where
  title : String
  topic : String
deriving DecidableEq, Repr

/-- The previous-titles loop at the top of `Generate` (generator.go):
`for _, article := range history.Articles { if article.Topic == topic { previousTitles = append(previousTitles, article.Title) } }`. -/
def previousTitles (articles : List ArticleRecord) (topic : String) : List String :=
  articles.foldl (fun acc a => if a.topic = topic then acc ++ [a.title] else acc) []

-- Sanity examples (concrete evaluations of the embedded definitions).
example : isRetryableError (.errorf "API request failed with status 500: boom") = true := by decide
example : isRetryableError (.errorf "API request failed with status 400: bad") = false := by decide
example : isRetryableError .canceled = false := by decide
example : SelectRandomTopic [] 0 = "Software Engineering Best Practices" := by decide
example : SelectRandomTopic [⟨"a", 2⟩, ⟨"b", 1⟩] 2 = "b" := by decide
example : previousTitles [⟨"A", "X"⟩, ⟨"B", "Y"⟩, ⟨"C", "X"⟩] "X" = ["A", "C"] := by decide

/-! ## Model of `encoding/json` as used by this program -/

/-- JSON values as produced by the `encoding/json` scanner.  Number lexemes
are kept as text: this program never reads a numeric value. -/
inductive JVal where
  | jnull
  | jbool (b : Bool)
  | jnum (lexeme : String)
  | jstr (s : String)
  | jarr (elems : List JVal)
  | jobj (members : List (String × JVal))

/-- JSON whitespace (`encoding/json` `isSpace`). -/
def isJsonWs (c : Char) : Bool := c = ' ' || c = '\t' || c = '\n' || c = '\r'

/-- Skip JSON whitespace. -/
def skipWs (l : List Char) : List Char := l.dropWhile isJsonWs

/-- Value of one hex digit, as accepted in a `\u` escape. -/
def hexVal (c : Char) : Option Nat :=
  if '0' ≤ c ∧ c ≤ '9' then some (c.toNat - 48)
  else if 'a' ≤ c ∧ c ≤ 'f' then some (c.toNat - 87)
  else if 'A' ≤ c ∧ c ≤ 'F' then some (c.toNat - 55)
  else none

/-- Value of a four-hex-digit `\uXXXX` escape body. -/
def hex4 (a b c d : Char) : Option Nat := do
  let x ← hexVal a
  let y ← hexVal b
  let z ← hexVal c
  let w ← hexVal d
  pure (((x * 16 + y) * 16 + z) * 16 + w)

/-- The body of a JSON string, from just after the opening quote: returns the
decoded characters and the input after the closing quote.  Faithful to the Go
scanner (valid escapes only, no raw control characters) combined with
`unquote` (surrogate pairs combine; unpaired surrogates decode to U+FFFD with
only the first escape consumed).  `fuel` is decremented once per decoded
character, so any `fuel` exceeding the input length suffices. -/
def parseStrBody : Nat → List Char → Option (List Char × List Char)
  | 0, _ => none
  | _, [] => none
  | fuel + 1, c :: rest =>
    if c = '"' then some ([], rest)
    else if c = '\\' then
      match rest with
      | '"' :: r => (parseStrBody fuel r).map (fun p => ('"' :: p.1, p.2))
      | '\\' :: r => (parseStrBody fuel r).map (fun p => ('\\' :: p.1, p.2))
      | '/' :: r => (parseStrBody fuel r).map (fun p => ('/' :: p.1, p.2))
      | 'b' :: r => (parseStrBody fuel r).map (fun p => ('\x08' :: p.1, p.2))
      | 'f' :: r => (parseStrBody fuel r).map (fun p => ('\x0c' :: p.1, p.2))
      | 'n' :: r => (parseStrBody fuel r).map (fun p => ('\n' :: p.1, p.2))
      | 'r' :: r => (parseStrBody fuel r).map (fun p => ('\r' :: p.1, p.2))
      | 't' :: r => (parseStrBody fuel r).map (fun p => ('\t' :: p.1, p.2))
      | 'u' :: h1 :: h2 :: h3 :: h4c :: r =>
        match hex4 h1 h2 h3 h4c with
        | none => none
        | some n =>
          if 0xD800 ≤ n ∧ n < 0xE000 then
            match r with
            | '\\' :: 'u' :: g1 :: g2 :: g3 :: g4 :: r2 =>
              match hex4 g1 g2 g3 g4 with
              | some m =>
                if n < 0xDC00 ∧ 0xDC00 ≤ m ∧ m < 0xE000 then
                  (parseStrBody fuel r2).map (fun p =>
                    (Char.ofNat (0x10000 + (n - 0xD800) * 0x400 + (m - 0xDC00)) :: p.1, p.2))
                else (parseStrBody fuel r).map (fun p => ('�' :: p.1, p.2))
              | none => (parseStrBody fuel r).map (fun p => ('�' :: p.1, p.2))
            | _ => (parseStrBody fuel r).map (fun p => ('�' :: p.1, p.2))
          else (parseStrBody fuel r).map (fun p => (Char.ofNat n :: p.1, p.2))
      | _ => none
    else if c.toNat < 0x20 then none
    else (parseStrBody fuel rest).map (fun p => (c :: p.1, p.2))

/-- A JSON string body with locally computed (always sufficient) fuel. -/
def parseStr (l : List Char) : Option (List Char × List Char) :=
  parseStrBody (l.length + 1) l

/-- Leading decimal digits of the input, and the rest. -/
def jdigits (l : List Char) : List Char × List Char :=
  (l.takeWhile Char.isDigit, l.dropWhile Char.isDigit)

/-- Integer part of a JSON number: `0`, or a nonzero digit followed by digits. -/
def parseIntPart : List Char → Option (List Char × List Char)
  | '0' :: r => some (['0'], r)
  | c :: r => if c.isDigit then let p := jdigits r; some (c :: p.1, p.2) else none
  | [] => none

/-- Optional fraction part of a JSON number. -/
def parseFracPart : List Char → Option (List Char × List Char)
  | '.' :: r =>
    let p := jdigits r
    if p.1 = [] then none else some ('.' :: p.1, p.2)
  | l => some ([], l)

/-- Optional exponent part of a JSON number. -/
def parseExpPart : List Char → Option (List Char × List Char)
  | c :: r =>
    if c = 'e' ∨ c = 'E' then
      match r with
      | s :: r1 =>
        if s = '+' ∨ s = '-' then
          let p := jdigits r1
          if p.1 = [] then none else some (c :: s :: p.1, p.2)
        else
          let p := jdigits r
          if p.1 = [] then none else some (c :: p.1, p.2)
      | [] => none
    else some ([], c :: r)
  | [] => some ([], [])

/-- A JSON number lexeme per the Go scanner grammar
`-?(0|[1-9][0-9]*)(\.[0-9]+)?([eE][+-]?[0-9]+)?`. -/
def parseNum (l : List Char) : Option (List Char × List Char) :=
  let sl : List Char × List Char :=
    match l with
    | '-' :: r => (['-'], r)
    | _ => ([], l)
  match parseIntPart sl.2 with
  | none => none
  | some (ip, l2) =>
    match parseFracPart l2 with
    | none => none
    | some (fp, l3) =>
      match parseExpPart l3 with
      | none => none
      | some (ep, l4) => some (sl.1 ++ ip ++ fp ++ ep, l4)

/-- Expect the literal tail `s` (for `true`/`false`/`null`). -/
def expectLit (s : String) (l : List Char) (v : JVal) : Option (JVal × List Char) :=
  if s.toList.isPrefixOf l then some (v, l.drop s.toList.length) else none

mutual

/-- One JSON value (with leading whitespace), returning the value and the
rest of the input.  `fuel` only bounds recursion depth; `jsonFuel` below is
always sufficient, so the model never spuriously fails. -/
def parseJVal : Nat → List Char → Option (JVal × List Char)
  | 0, _ => none
  | fuel + 1, l =>
    match skipWs l with
    | [] => none
    | c :: r =>
      if c = '{' then
        match skipWs r with
        | '}' :: r2 => some (.jobj [], r2)
        | r2 => (parseMembers fuel r2).map (fun p => (JVal.jobj p.1, p.2))
      else if c = '[' then
        match skipWs r with
        | ']' :: r2 => some (.jarr [], r2)
        | r2 => (parseElems fuel r2).map (fun p => (JVal.jarr p.1, p.2))
      else if c = '"' then
        (parseStr r).map (fun p => (JVal.jstr (String.mk p.1), p.2))
      else if c = 't' then expectLit "rue" r (.jbool true)
      else if c = 'f' then expectLit "alse" r (.jbool false)
      else if c = 'n' then expectLit "ull" r .jnull
      else (parseNum (c :: r)).map (fun p => (JVal.jnum (String.mk p.1), p.2))

/-- Nonempty member list of a JSON object, from the first key (whitespace
already skipped) through the closing brace. -/
def parseMembers : Nat → List Char → Option (List (String × JVal) × List Char)
  | 0, _ => none
  | fuel + 1, l =>
    match l with
    | '"' :: r =>
      match parseStr r with
      | none => none
      | some (key, r1) =>
        match skipWs r1 with
        | ':' :: r2 =>
          match parseJVal fuel r2 with
          | none => none
          | some (v, r3) =>
            match skipWs r3 with
            | ',' :: r4 =>
              (parseMembers fuel (skipWs r4)).map
                (fun p => ((String.mk key, v) :: p.1, p.2))
            | '}' :: r4 => some ([(String.mk key, v)], r4)
            | _ => none
        | _ => none
    | _ => none

/-- Nonempty element list of a JSON array, through the closing bracket. -/
def parseElems : Nat → List Char → Option (List JVal × List Char)
  | 0, _ => none
  | fuel + 1, l =>
    match parseJVal fuel l with
    | none => none
    | some (v, r) =>
      match skipWs r with
      | ',' :: r2 => (parseElems fuel r2).map (fun p => (v :: p.1, p.2))
      | ']' :: r2 => some ([v], r2)
      | _ => none

end

/-- Sufficient fuel for `parseJVal` on input `l`: at most two units of fuel
are consumed per character of input. -/
def jsonFuel (l : List Char) : Nat := 2 * l.length + 4

/-- A complete top-level JSON value: scan plus the `checkValid` rule that
trailing non-whitespace after the value is an error. -/
def parseTopLevel (l : List Char) : Option JVal :=
  match parseJVal (jsonFuel l) l with
  | some (v, rest) => if skipWs rest = [] then some v else none
  | none => none

/-! ## Decoding into the Go structs of generator.go -/

/-- generator.go `parseResponse` target struct (and `Article` minus the
`PublishedAt` timestamp, which `Generate` sets afterwards). -/
structure Article where
  title : String
  content : String
  tags : List String
deriving DecidableEq, Repr

/-- ASCII case folding, as `encoding/json` uses for field-name matching. -/
def asciiFold (c : Char) : Char :=
  if 'A' ≤ c ∧ c ≤ 'Z' then Char.ofNat (c.toNat + 32) else c

/-- Case-insensitive field-name match of `encoding/json`.  (Go prefers an
exact match over a folded one; with the lowercase, fold-distinct field tags
of this program the two rules coincide.) -/
def foldEq (a b : String) : Bool :=
  decide (a.toList.map asciiFold = b.toList.map asciiFold)

/-- Decode a JSON value into a `string` field holding `cur`: strings store,
`null` is a no-op, anything else is an `UnmarshalTypeError`. -/
def decodeStringField (v : JVal) (cur : String) : Except String String :=
  match v with
  | .jstr s => .ok s
  | .jnull => .ok cur
  | _ => .error "cannot unmarshal value into field of type string"

/-- Decode one element of a `[]string`: `null` leaves the zero value. -/
def decodeTagElem (v : JVal) : Except String String :=
  match v with
  | .jstr s => .ok s
  | .jnull => .ok ""
  | _ => .error "cannot unmarshal value into element of type string"

/-- Decode a JSON value into a `[]string` field holding `cur`. -/
def decodeTags (v : JVal) (cur : List String) : Except String (List String) :=
  match v with
  | .jarr xs => xs.mapM decodeTagElem
  | .jnull => .ok cur
  | _ => .error "cannot unmarshal value into field of type []string"

/-- Apply one object member to the `parseResponse` result struct; unknown
keys are ignored. -/
def applyMember (st : Article) (m : String × JVal) : Except String Article :=
  if foldEq m.1 "title" then (decodeStringField m.2 st.title).map (fun s => { st with title := s })
  else if foldEq m.1 "content" then (decodeStringField m.2 st.content).map (fun s => { st with content := s })
  else if foldEq m.1 "tags" then (decodeTags m.2 st.tags).map (fun ts => { st with tags := ts })
  else .ok st

/-- Decode a top-level JSON value into the `parseResponse` result struct
(`json.Unmarshal` semantics: must be an object or `null`). -/
def decodeArticleVal (v : JVal) : Except String Article :=
  match v with
  | .jobj ms => ms.foldlM applyMember ⟨"", "", []⟩
  | .jnull => .ok ⟨"", "", []⟩
  | _ => .error "cannot unmarshal value into value of type struct"

/-- `json.Unmarshal(jsonStr, &result)` of `parseResponse`. -/
def unmarshalArticle (l : List Char) : Except String Article :=
  match parseTopLevel l with
  | none => .error "invalid JSON syntax"
  | some v => decodeArticleVal v

/-- Apply one member of a content block to its `Text` field. -/
def applyBlockMember (cur : String) (m : String × JVal) : Except String String :=
  if foldEq m.1 "text" then decodeStringField m.2 cur else .ok cur

/-- Decode one element of the `content` array (`struct{ Text string }`). -/
def decodeContentElem (v : JVal) : Except String String :=
  match v with
  | .jobj ms => ms.foldlM applyBlockMember ""
  | .jnull => .ok ""
  | _ => .error "cannot unmarshal value into element of type struct"

/-- Apply one member of the API response object to the `Content` field. -/
def applyContentMember (cur : List String) (m : String × JVal) : Except String (List String) :=
  if foldEq m.1 "content" then
    match m.2 with
    | .jarr xs => xs.mapM decodeContentElem
    | .jnull => .ok cur
    | _ => .error "cannot unmarshal value into field of type slice"
  else .ok cur

/-- Decode a top-level JSON value into the anonymous response struct of
`callClaudeAPI` (the list of `Text` fields of the `Content` blocks). -/
def decodeContentVal (v : JVal) : Except String (List String) :=
  match v with
  | .jobj ms => ms.foldlM applyContentMember []
  | .jnull => .ok []
  | _ => .error "cannot unmarshal value into value of type struct"

/-- `json.Unmarshal(body, &response)` of `callClaudeAPI`. -/
def unmarshalContent (l : List Char) : Except String (List String) :=
  match parseTopLevel l with
  | none => .error "invalid JSON syntax"
  | some v => decodeContentVal v

/-! ## `callClaudeAPI` response handling and `parseResponse` -/

/-- The observable part of one HTTP exchange of `callClaudeAPI`: the response
status code and body (the function is embedded from the point where the
response has been read; transport-level failures are covered by the
`RetryEnv` of the retry loop). -/
structure HTTPExchange where
  status : Nat
  body : String

/-- generator.go `callClaudeAPI`, from the status-code check on: non-200
statuses fail with the status and body text; a 200 body is unmarshalled; an
empty content slice fails with "no content in response"; otherwise the first
block's text is returned. -/
def callClaudeAPI (resp : HTTPExchange) : Except GoError String :=
  if resp.status ≠ 200 then
    .error (.errorf ("API request failed with status " ++ toString resp.status ++ ": " ++ resp.body))
  else
    match unmarshalContent resp.body.toList with
    | .error m => .error (.errorf m)
    | .ok [] => .error (.errorf "no content in response")
    | .ok (b :: _) => .ok b

/-- Outcome of `parseResponse`: a parsed article, a returned error, or a Go
runtime panic (which the function does not catch). -/
inductive ParseOutcome where
  | ok (a : Article)
  | err (e : GoError)
  | panic (msg : String)
deriving DecidableEq, Repr

/-- The pair (index of first `\x7b`, index of last `\x7d`) of
`parseResponse`, when both are found (`strings.Index` / `strings.LastIndex`
returning -1 is encoded as `none`). -/
def braceIdx (response : String) : Option (Nat × Nat) :=
  match response.toList.findIdx? (fun c => c = '{'),
      response.toList.reverse.findIdx? (fun c => c = '}') with
  | some s, some rj => some (s, response.toList.length - 1 - rj)
  | _, _ => none

/-- generator.go `parseResponse`: find the first `\x7b` and last `\x7d`,
fail with "no JSON found in response" if either is absent, then decode the
inclusive span `response[start:end+1]`.  Go slicing panics when
`start > end+1`. -/
def parseResponse (response : String) : ParseOutcome :=
  match braceIdx response with
  | none => .err (.errorf "no JSON found in response")
  | some (s, e) =>
    if s ≤ e + 1 then
      match unmarshalArticle ((response.toList.drop s).take (e + 1 - s)) with
      | .ok a => .ok a
      | .error m => .err (.wrap "failed to parse JSON: " (.errorf m))
    else .panic "slice bounds out of range"

/-- The inclusive substring from the first `\x7b` to the last `\x7d`, when
it exists (the spec's "substring between them (inclusive)"). -/
def jsonSpanOf (response : String) : Option (List Char) :=
  match braceIdx response with
  | none => none
  | some (s, e) =>
    if s ≤ e + 1 then some ((response.toList.drop s).take (e + 1 - s)) else none

/-! ## `encoding/json.Marshal` of a title/content/tags value

The repository never marshals an article; these definitions embed the claim's
"JSON serialization of a `\x7b"title","content","tags"\x7d` value", following
`encoding/json.Marshal` (HTML-escaping encoder, struct field order). -/

/-- Lowercase hex digit. -/
def hexDigitLower (n : Nat) : Char :=
  if n < 10 then Char.ofNat (48 + n) else Char.ofNat (87 + n)

/-- `encoding/json` string encoding of one character: quote, backslash and
newline/return/tab get two-character escapes; other control characters get
`\u00xx`; `<`, `>`, `&` (HTML escaping, on by default in `Marshal`) and
U+2028/U+2029 get `\uxxxx`; everything else is copied. -/
def escChar (c : Char) : List Char :=
  if c = '"' then ['\\', '"']
  else if c = '\\' then ['\\', '\\']
  else if c = '\n' then ['\\', 'n']
  else if c = '\r' then ['\\', 'r']
  else if c = '\t' then ['\\', 't']
  else if c.toNat < 0x20 then
    ['\\', 'u', '0', '0', hexDigitLower (c.toNat / 16), hexDigitLower (c.toNat % 16)]
  else if c = '<' ∨ c = '>' ∨ c = '&' then
    ['\\', 'u', '0', '0', hexDigitLower (c.toNat / 16), hexDigitLower (c.toNat % 16)]
  else if c.toNat = 0x2028 ∨ c.toNat = 0x2029 then
    ['\\', 'u', '2', '0', '2', hexDigitLower (c.toNat % 16)]
  else [c]

/-- String encoding of a character list. -/
def escList : List Char → List Char
  | [] => []
  | c :: l => escChar c ++ escList l

/-- `encoding/json` encoding of a Go string, quotes included. -/
def goEncodeString (s : String) : List Char :=
  ['"'] ++ escList s.toList ++ ['"']

/-- Comma-separated encodings of the tag strings. -/
def encTagList : List String → List Char
  | [] => []
  | [t] => goEncodeString t
  | t :: rest => goEncodeString t ++ [','] ++ encTagList rest

/-- `json.Marshal` of a `title`/`content`/`tags` struct value. -/
def goMarshalArticle (t c : String) (tags : List String) : List Char :=
  ['\x7b', '"', 't', 'i', 't', 'l', 'e', '"', ':'] ++ goEncodeString t ++
    [',', '"', 'c', 'o', 'n', 't', 'e', 'n', 't', '"', ':'] ++ goEncodeString c ++
    [',', '"', 't', 'a', 'g', 's', '"', ':', '['] ++ encTagList tags ++ [']', '\x7d']

-- Sanity examples for the JSON model.
example : parseResponse "no braces here" = .err (.errorf "no JSON found in response") := by decide
example :
    parseResponse (String.mk (goMarshalArticle "T" "# T" ["a", "b"])) =
      .ok ⟨"T", "# T", ["a", "b"]⟩ := by decide
example : parseResponse (String.mk ['}', 'x', '{']) = .panic "slice bounds out of range" := by decide
example : parseResponse "a\x7bb\x7dc" = .err (.wrap "failed to parse JSON: " (.errorf "invalid JSON syntax")) := by decide
example : callClaudeAPI ⟨500, "boom"⟩ = .error (.errorf "API request failed with status 500: boom") := rfl
example : callClaudeAPI ⟨200, "\x7b\"content\":[\x7b\"text\":\"hi\"\x7d]\x7d"⟩ = .ok "hi" := rfl
example : callClaudeAPI ⟨200, "\x7b\"content\":[]\x7d"⟩ = .error (.errorf "no content in response") := rfl
example : callClaudeAPI ⟨201, "\x7b\"content\":[\x7b\"text\":\"hi\"\x7d]\x7d"⟩ =
    .error (.errorf "API request failed with status 201: \x7b\"content\":[\x7b\"text\":\"hi\"\x7d]\x7d") := rfl

/-! ## Topic selection lemmas -/

/-- The normalization `if weight <= 0 then 1` equals `max weight 1`. -/
theorem normWeight_eq_max (w : Int) : normWeight w = max w 1 := by
  simp only [normWeight, max_def]
  split_ifs <;> omega

/-- The selection walk returns exactly the first topic whose cumulative
normalized weight exceeds `r`. -/
theorem selectLoop_eq_find (r : Int) :
    ∀ (ts : List TopicConfig) (acc : Int),
      selectLoop r acc ts = ((cumFrom acc ts).find? (fun p => r < p.2)).map (fun p => p.1)
  | [], _ => rfl
  | t :: ts, acc => by
    by_cases h : r < acc + normWeight t.weight <;>
      simp [selectLoop, cumFrom, List.find?, h, selectLoop_eq_find r ts (acc + normWeight t.weight)]

/-- When `r` is below the remaining total weight, the walk succeeds and
returns a name from the list. -/
theorem selectLoop_mem (r : Int) :
    ∀ (ts : List TopicConfig) (acc : Int), r < acc + totalWeight ts → ts ≠ [] →
      ∃ n, selectLoop r acc ts = some n ∧ n ∈ ts.map (fun t => t.name)
  | [], _, _, hne => absurd rfl hne
  | t :: ts, acc, hlt, _ => by
    by_cases h : r < acc + normWeight t.weight
    · exact ⟨t.name, by simp [selectLoop, h], by simp⟩
    · rcases ts with _ | ⟨t2, ts2⟩
      · exfalso
        simp [totalWeight] at hlt
        omega
      · have hlt2 : r < (acc + normWeight t.weight) + totalWeight (t2 :: ts2) := by
          simp [totalWeight] at hlt ⊢
          omega
        obtain ⟨n, hn, hmem⟩ :=
          selectLoop_mem r (t2 :: ts2) (acc + normWeight t.weight) hlt2 (by simp)
        refine ⟨n, by simp only [selectLoop]; rw [if_neg h]; exact hn, ?_⟩
        simp only [List.map_cons, List.mem_cons] at hmem ⊢
        tauto

/-- C8: for every non-empty topic list, the total weight is the sum of
`max(weight, 1)` over all topics, and for every drawn `r` in
`[0, totalWeight)` the selector returns the name of the first topic in list
order whose cumulative normalized weight exceeds `r`; that name is present in
the input list. -/
theorem SelectRandomTopic_weighted_walk (ts : List TopicConfig) (r : Int)
    (hne : ts ≠ []) (_hr0 : 0 ≤ r) (hrt : r < totalWeight ts) :
    totalWeight ts = (ts.map (fun t => max t.weight 1)).sum ∧
      firstExceeding ts r = some (SelectRandomTopic ts r) ∧
      SelectRandomTopic ts r ∈ ts.map (fun t => t.name) := by
  refine ⟨?_, ?_⟩
  · simp only [totalWeight]
    congr 1
    exact List.map_congr_left (fun t _ => normWeight_eq_max t.weight)
  · rcases ts with _ | ⟨t0, ts'⟩
    · exact absurd rfl hne
    · obtain ⟨n, hn, hmem⟩ :=
        selectLoop_mem r (t0 :: ts') 0 (by simpa using hrt) (by simp)
      have hsel : SelectRandomTopic (t0 :: ts') r = n := by
        simp [SelectRandomTopic, hn]
      rw [hsel]
      exact ⟨by rw [firstExceeding, ← selectLoop_eq_find, hn], hmem⟩

/-- Witness for `SelectRandomTopic_weighted_walk` at a concrete topic list
and draw. -/
theorem SelectRandomTopic_weighted_walk_witness :
    (([⟨"a", 2⟩, ⟨"b", 1⟩] : List TopicConfig) ≠ [] ∧ (0 : Int) ≤ 2 ∧
        (2 : Int) < totalWeight [⟨"a", 2⟩, ⟨"b", 1⟩]) ∧
      (totalWeight [⟨"a", 2⟩, ⟨"b", 1⟩] =
          (([⟨"a", 2⟩, ⟨"b", 1⟩] : List TopicConfig).map (fun t => max t.weight 1)).sum ∧
        firstExceeding [⟨"a", 2⟩, ⟨"b", 1⟩] 2 = some (SelectRandomTopic [⟨"a", 2⟩, ⟨"b", 1⟩] 2) ∧
        SelectRandomTopic [⟨"a", 2⟩, ⟨"b", 1⟩] 2 ∈
          ([⟨"a", 2⟩, ⟨"b", 1⟩] : List TopicConfig).map (fun t => t.name)) :=
  ⟨⟨by decide, by decide, by decide⟩,
    SelectRandomTopic_weighted_walk [⟨"a", 2⟩, ⟨"b", 1⟩] 2 (by decide) (by decide) (by decide)⟩

/-- C9: the selector on an empty topic list returns the fixed fallback name
rather than failing, for every drawn value. -/
theorem SelectRandomTopic_empty_fallback :
    ∀ r : Int, SelectRandomTopic [] r = "Software Engineering Best Practices" :=
  fun _ => rfl

/-- The previous-titles accumulation loop, generalized over the accumulator. -/
theorem previousTitles_foldl (topic : String) :
    ∀ (arts : List ArticleRecord) (acc : List String),
      arts.foldl (fun acc a => if a.topic = topic then acc ++ [a.title] else acc) acc =
        acc ++ (arts.filter (fun a => a.topic == topic)).map (fun a => a.title)
  | [], acc => by simp
  | a :: arts, acc => by
    by_cases h : a.topic = topic <;>
      simp [List.foldl_cons, List.filter_cons, h, previousTitles_foldl topic arts]

/-- C10: the previous-titles list built by `Generate` is exactly the titles
of the history entries whose topic equals the requested topic, in original
order; in particular on the history `X/A, Y/B, X/C` with topic `X` it is
`[A, C]`. -/
theorem previousTitles_filter :
    (∀ (arts : List ArticleRecord) (topic : String),
        previousTitles arts topic =
          (arts.filter (fun a => a.topic == topic)).map (fun a => a.title)) ∧
      previousTitles [⟨"A", "X"⟩, ⟨"B", "Y"⟩, ⟨"C", "X"⟩] "X" = ["A", "C"] :=
  ⟨fun arts topic => by simpa using previousTitles_foldl topic arts [], by decide⟩

/-- C7 failing input: on `"\x7dx\x7b"` — both braces present, the first
`\x7b` after the last `\x7d` — the Go code slices `response[2:1]` and
panics instead of returning an error. -/
theorem parseResponse_panic_on_reversed_braces :
    parseResponse (String.mk ['}', 'x', '{']) = .panic "slice bounds out of range" := by
  decide

/-! ## Retry loop lemmas -/

/-- The loop makes at most `fuel` API attempts. -/
theorem retryGo_attempts_le (env : RetryEnv) :
    ∀ (fuel attempt : Nat) (e : GoError), (retryGo env fuel attempt e).attempts ≤ fuel := by
  intro fuel
  induction fuel with
  | zero => intro attempt e; simp [retryGo]
  | succ n ih =>
    intro attempt e
    rw [retryGo]
    split
    · rcases henv : env.attemptResult attempt with e' | s <;> simp [henv]
      split
      · have := ih (attempt + 1) e'
        simp
        omega
      · simp
    · rcases hc : env.cancelDuring attempt with _ | ce <;> simp [hc]
      rcases henv : env.attemptResult attempt with e' | s <;> simp [henv]
      split
      · have := ih (attempt + 1) e'
        simp
        omega
      · simp

/-- C1: the retry loop makes at most 3 attempts; and when every attempt
fails with a retryable error and no cancellation fires, exactly 3 attempts
are made, the completed backoff waits are 2 and 4 seconds (before retries 1
and 2), and the returned error wraps the last underlying error under the
"max retries exceeded: " prefix. -/
theorem retry_budget_backoff_exhaustion (env : RetryEnv) (e0 e1 e2 : GoError)
    (h0 : env.attemptResult 0 = .error e0) (hr0 : isRetryableError e0 = true)
    (h1 : env.attemptResult 1 = .error e1) (hr1 : isRetryableError e1 = true)
    (h2 : env.attemptResult 2 = .error e2) (hr2 : isRetryableError e2 = true)
    (hc : ∀ k, env.cancelDuring k = none) :
    (∀ env' : RetryEnv, (callClaudeAPIWithRetry env').attempts ≤ 3) ∧
      callClaudeAPIWithRetry env =
        ⟨.err (.wrap "max retries exceeded: " e2), [2, 4], 3⟩ := by
  refine ⟨fun env' => retryGo_attempts_le env' 3 0 _, ?_⟩
  simp [callClaudeAPIWithRetry, maxRetries, retryGo, h0, hr0, h1, hr1, h2, hr2, hc 1, hc 2]

/-- Environment in which every attempt fails with a retryable 500 error and
no cancellation fires. -/
def exhaustEnv : RetryEnv :=
  ⟨fun _ => .error (.errorf "API request failed with status 500: x"), fun _ => none⟩

/-- Witness for `retry_budget_backoff_exhaustion` on `exhaustEnv`. -/
theorem retry_budget_backoff_exhaustion_witness :
    (exhaustEnv.attemptResult 0 = .error (.errorf "API request failed with status 500: x") ∧
        isRetryableError (.errorf "API request failed with status 500: x") = true ∧
        exhaustEnv.attemptResult 1 = .error (.errorf "API request failed with status 500: x") ∧
        exhaustEnv.attemptResult 2 = .error (.errorf "API request failed with status 500: x") ∧
        (∀ k, exhaustEnv.cancelDuring k = none)) ∧
      (∀ env' : RetryEnv, (callClaudeAPIWithRetry env').attempts ≤ 3) ∧
        callClaudeAPIWithRetry exhaustEnv =
          ⟨.err (.wrap "max retries exceeded: "
            (.errorf "API request failed with status 500: x")), [2, 4], 3⟩ :=
  ⟨⟨rfl, by decide, rfl, rfl, fun _ => rfl⟩,
    retry_budget_backoff_exhaustion exhaustEnv _ _ _ rfl (by decide) rfl (by decide) rfl
      (by decide) (fun _ => rfl)⟩

/-- C2: an error is classified retryable exactly when it is neither context
sentinel and its message contains one of the four transient markers; and
when attempt `i` fails with a non-retryable error (after retryable failures
before it), the loop returns that error immediately, having made exactly
`i + 1` attempts. -/
theorem retry_classification :
    (∀ e : GoError,
        isRetryableError e = true ↔
          (e ≠ .canceled ∧ e ≠ .deadlineExceeded ∧
            (containsSub e.message "status 5" = true ∨ containsSub e.message "429" = true ∨
              containsSub e.message "timeout" = true ∨
              containsSub e.message "connection refused" = true))) ∧
      (∀ (env : RetryEnv) (i : Nat) (e : GoError), i < 3 →
        (∀ k, env.cancelDuring k = none) →
        (∀ j, j < i → ∃ ej, env.attemptResult j = .error ej ∧ isRetryableError ej = true) →
        env.attemptResult i = .error e → isRetryableError e = false →
        callClaudeAPIWithRetry env = ⟨.err e, (List.range i).map (fun k => 2 ^ (k + 1)), i + 1⟩) := by
  constructor
  · intro e
    cases e <;> simp [isRetryableError, GoError.message] <;> tauto
  · intro env i e hi hc hprev he hnr
    interval_cases i
    · simp [callClaudeAPIWithRetry, maxRetries, retryGo, he, hnr]
    · obtain ⟨ej0, h0, hr0⟩ := hprev 0 (by omega)
      simp [callClaudeAPIWithRetry, maxRetries, retryGo, h0, hr0, hc 1, he, hnr]
      decide
    · obtain ⟨ej0, h0, hr0⟩ := hprev 0 (by omega)
      obtain ⟨ej1, h1, hr1⟩ := hprev 1 (by omega)
      simp [callClaudeAPIWithRetry, maxRetries, retryGo, h0, hr0, h1, hr1, hc 1, hc 2, he, hnr]
      decide

/-- Environment whose first attempt fails with a non-retryable 400 error. -/
def badRequestEnv : RetryEnv :=
  ⟨fun _ => .error (.errorf "API request failed with status 400: bad"), fun _ => none⟩

/-- Witness for `retry_classification` at attempt 0 of `badRequestEnv`. -/
theorem retry_classification_witness :
    ((0 : Nat) < 3 ∧ (∀ k, badRequestEnv.cancelDuring k = none) ∧
        badRequestEnv.attemptResult 0 = .error (.errorf "API request failed with status 400: bad") ∧
        isRetryableError (.errorf "API request failed with status 400: bad") = false) ∧
      callClaudeAPIWithRetry badRequestEnv =
        ⟨.err (.errorf "API request failed with status 400: bad"), [], 1⟩ := by
  refine ⟨⟨by decide, fun _ => rfl, rfl, by decide⟩, ?_⟩
  have h := retry_classification.2 badRequestEnv 0
    (.errorf "API request failed with status 400: bad") (by decide) (fun _ => rfl)
    (fun j hj => absurd hj (Nat.not_lt_zero j)) rfl (by decide)
  simpa using h

/-- C3: if the attempts before backoff `k` (k = 1 or 2) fail with retryable
errors and the cancellation signal fires during the `k`-th backoff wait, the
loop aborts the wait (no `k`-th wait completes), returns the cancellation
error, and in particular does not return a retry-exhausted error. -/
theorem retry_cancel_during_backoff (env : RetryEnv) (k : Nat) (ce : GoError)
    (hk : k = 1 ∨ k = 2)
    (hprev : ∀ j, j < k → ∃ ej, env.attemptResult j = .error ej ∧ isRetryableError ej = true)
    (hnc : ∀ j, 0 < j → j < k → env.cancelDuring j = none)
    (hcancel : env.cancelDuring k = some ce)
    (hce : ce = .canceled ∨ ce = .deadlineExceeded) :
    callClaudeAPIWithRetry env =
        ⟨.err ce, (List.range (k - 1)).map (fun j => 2 ^ (j + 1)), k⟩ ∧
      ∀ e', (callClaudeAPIWithRetry env).result ≠ .err (.wrap "max retries exceeded: " e') := by
  have hmain : callClaudeAPIWithRetry env =
      ⟨.err ce, (List.range (k - 1)).map (fun j => 2 ^ (j + 1)), k⟩ := by
    rcases hk with h | h <;> subst h
    · obtain ⟨ej0, h0, hr0⟩ := hprev 0 (by omega)
      simp [callClaudeAPIWithRetry, maxRetries, retryGo, h0, hr0, hcancel]
    · obtain ⟨ej0, h0, hr0⟩ := hprev 0 (by omega)
      obtain ⟨ej1, h1, hr1⟩ := hprev 1 (by omega)
      simp [callClaudeAPIWithRetry, maxRetries, retryGo, h0, hr0, h1, hr1,
        hnc 1 (by omega) (by omega), hcancel]
      decide
  refine ⟨hmain, fun e' => ?_⟩
  rw [hmain]
  rcases hce with h | h <;> subst h <;> simp

/-- Environment whose first attempt fails retryably and whose first backoff
wait is interrupted by cancellation. -/
def cancelEnv : RetryEnv :=
  ⟨fun _ => .error (.errorf "API request failed with status 503: x"),
    fun k => if k = 1 then some .canceled else none⟩

/-- Witness for `retry_cancel_during_backoff` at `k = 1` on `cancelEnv`. -/
theorem retry_cancel_during_backoff_witness :
    ((1 = 1 ∨ 1 = 2) ∧
        cancelEnv.attemptResult 0 = .error (.errorf "API request failed with status 503: x") ∧
        isRetryableError (.errorf "API request failed with status 503: x") = true ∧
        cancelEnv.cancelDuring 1 = some .canceled) ∧
      callClaudeAPIWithRetry cancelEnv = ⟨.err .canceled, [], 1⟩ ∧
        ∀ e', (callClaudeAPIWithRetry cancelEnv).result ≠
          .err (.wrap "max retries exceeded: " e') := by
  refine ⟨⟨Or.inl rfl, rfl, by decide, rfl⟩, ?_⟩
  have h := retry_cancel_during_backoff cancelEnv 1 .canceled (Or.inl rfl)
    (fun j hj => ⟨.errorf "API request failed with status 503: x",
      by interval_cases j; rfl, by decide⟩)
    (fun j hj1 hj2 => absurd (Nat.lt_of_lt_of_le hj2 (Nat.le_of_eq rfl)) (by omega))
    rfl (Or.inl rfl)
  simpa using h

/-! ## Single-attempt call: status handling -/

/-- C4 (amended): the single-attempt call fails exactly when the HTTP status
is not 200, or the 200 response body fails to unmarshal, or the unmarshalled
content payload is empty; the non-200 failure carries the status code and
body text, the empty-payload failure is "no content in response", and
otherwise the text of the first content block is returned. -/
theorem callClaudeAPI_failure_spec (resp : HTTPExchange) :
    (resp.status ≠ 200 →
        callClaudeAPI resp = .error (.errorf
          ("API request failed with status " ++ toString resp.status ++ ": " ++ resp.body))) ∧
      (∀ m, resp.status = 200 → unmarshalContent resp.body.toList = .error m →
        callClaudeAPI resp = .error (.errorf m)) ∧
      (resp.status = 200 → unmarshalContent resp.body.toList = .ok [] →
        callClaudeAPI resp = .error (.errorf "no content in response")) ∧
      (∀ b bs, resp.status = 200 → unmarshalContent resp.body.toList = .ok (b :: bs) →
        callClaudeAPI resp = .ok b) ∧
      ((∃ s, callClaudeAPI resp = .ok s) ↔
        (resp.status = 200 ∧ ∃ b bs, unmarshalContent resp.body.toList = .ok (b :: bs))) := by
  have hdata : resp.body.toList = resp.body.data := rfl
  rw [hdata]
  refine ⟨fun h => by simp [callClaudeAPI, h], fun m h hm => by simp [callClaudeAPI, h, hm],
    fun h hm => by simp [callClaudeAPI, h, hm],
    fun b bs h hm => by simp [callClaudeAPI, h, hm], ?_⟩
  constructor
  · intro ⟨s, hs⟩
    by_cases h : resp.status = 200
    · refine ⟨h, ?_⟩
      rcases hm : unmarshalContent resp.body.data with m | bls
      · simp [callClaudeAPI, h, hm] at hs
      · rcases bls with _ | ⟨b, bs⟩
        · simp [callClaudeAPI, h, hm] at hs
        · exact ⟨b, bs, rfl⟩
    · simp [callClaudeAPI, h] at hs
  · rintro ⟨h, b, bs, hm⟩
    exact ⟨b, by simp [callClaudeAPI, h, hm]⟩

/-- Witness for `callClaudeAPI_failure_spec`: a 201 response fails with the
status-carrying error. -/
theorem callClaudeAPI_failure_spec_witness :
    ((201 : Nat) ≠ 200) ∧
      callClaudeAPI ⟨201, "x"⟩ =
        .error (.errorf "API request failed with status 201: x") :=
  ⟨by decide, (callClaudeAPI_failure_spec ⟨201, "x"⟩).1 (by decide)⟩

/-- C4 counterexample: the claim says the call fails exactly on a non-2xx
status or an empty content payload.  But (a) a 201 status — a 2xx success
status — with a perfectly well-formed non-empty content body is rejected
(the code compares against 200 exactly), and (b) a 200 response whose body
holds one content block with a non-string `text` is also rejected (an
unmarshal failure, with a non-empty content payload). -/
theorem callClaudeAPI_non2xx_counterexample :
    (200 ≤ 201 ∧ 201 < 300) ∧
      unmarshalContent ("\x7b\"content\":[\x7b\"text\":\"hi\"\x7d]\x7d").toList = .ok ["hi"] ∧
      callClaudeAPI ⟨201, "\x7b\"content\":[\x7b\"text\":\"hi\"\x7d]\x7d"⟩ =
        .error (.errorf
          "API request failed with status 201: \x7b\"content\":[\x7b\"text\":\"hi\"\x7d]\x7d") ∧
      parseTopLevel ("\x7b\"content\":[\x7b\"text\":5\x7d]\x7d").toList =
        some (.jobj [("content", .jarr [.jobj [("text", .jnum "5")]])]) ∧
      callClaudeAPI ⟨200, "\x7b\"content\":[\x7b\"text\":5\x7d]\x7d"⟩ =
        .error (.errorf "cannot unmarshal value into field of type string") :=
  ⟨by decide, rfl, rfl, rfl, rfl⟩

/-! ## Brace-span extraction lemmas -/

/-- First index of `ch` in `l1 ++ ch :: tail` when `ch ∉ l1`. -/
theorem findIdx_concat (ch : Char) :
    ∀ (l1 : List Char), ch ∉ l1 → ∀ tail : List Char,
      List.findIdx? (fun c => c = ch) (l1 ++ ch :: tail) = some l1.length
  | [], _, tail => by simp [List.findIdx?_cons]
  | a :: l1, h, tail => by
    have h1 : a ≠ ch := fun he => h (he ▸ List.mem_cons_self a l1)
    have h2 : ch ∉ l1 := fun hm => h (List.mem_cons_of_mem a hm)
    rw [List.cons_append, List.findIdx?_cons, if_neg (by simp [h1]), List.findIdx?_succ,
      findIdx_concat ch l1 h2 tail]
    simp

/-- C5: `parseResponse` fails with "no JSON found in response" whenever the
input is missing a `\x7b` or a `\x7d`; and whenever the inclusive span from
the first `\x7b` to the last `\x7d` exists but does not decode, it fails
with a parse error wrapping the decoder's message — no article is returned. -/
theorem parseResponse_failure_modes :
    (∀ s : String, ('{' ∉ s.toList ∨ '}' ∉ s.toList) →
        parseResponse s = .err (.errorf "no JSON found in response")) ∧
      (∀ (s : String) (sp : List Char) (m : String),
        jsonSpanOf s = some sp → unmarshalArticle sp = .error m →
        parseResponse s = .err (.wrap "failed to parse JSON: " (.errorf m))) := by
  constructor
  · intro s h
    have hb : braceIdx s = none := by
      have hnone : s.toList.findIdx? (fun c => c = '{') = none ∨
          s.toList.reverse.findIdx? (fun c => c = '}') = none := by
        rcases h with h | h
        · refine Or.inl (List.findIdx?_eq_none_iff.mpr (fun x hx => ?_))
          simp only [decide_eq_false_iff_not]
          rintro rfl
          exact h hx
        · refine Or.inr (List.findIdx?_eq_none_iff.mpr (fun x hx => ?_))
          simp only [decide_eq_false_iff_not]
          rintro rfl
          exact h (List.mem_reverse.mp hx)
      rcases hnone with hn | hn
      · have hn' : List.findIdx? (fun c => decide (c = '{')) s.data = none := hn
        simp [braceIdx, hn']
      · have hn' : List.findIdx? (fun c => decide (c = '}')) s.data.reverse = none := hn
        rcases hf : s.data.findIdx? (fun c => c = '{') with _ | i <;>
          simp [braceIdx, hf, hn']
    simp [parseResponse, hb]
  · intro s sp m hspan hum
    simp only [jsonSpanOf] at hspan
    simp only [parseResponse]
    rcases hb : braceIdx s with _ | ⟨i, e⟩ <;> rw [hb] at hspan
    · exact Option.noConfusion hspan
    · dsimp only at hspan ⊢
      split at hspan
      · rename_i hle
        rw [Option.some.injEq] at hspan
        rw [← hspan] at hum
        rw [if_pos hle, hum]
      · exact Option.noConfusion hspan

/-- Witness for `parseResponse_failure_modes` at two concrete inputs. -/
theorem parseResponse_failure_modes_witness :
    (('{' ∉ "hello".toList ∨ '}' ∉ "hello".toList) ∧
        parseResponse "hello" = .err (.errorf "no JSON found in response")) ∧
      (jsonSpanOf "a\x7bb\x7dc" = some ['{', 'b', '}'] ∧
        unmarshalArticle ['{', 'b', '}'] = .error "invalid JSON syntax" ∧
        parseResponse "a\x7bb\x7dc" =
          .err (.wrap "failed to parse JSON: " (.errorf "invalid JSON syntax"))) :=
  ⟨⟨Or.inl (by decide), parseResponse_failure_modes.1 "hello" (Or.inl (by decide))⟩,
    ⟨by decide, rfl, parseResponse_failure_modes.2 "a\x7bb\x7dc" ['{', 'b', '}']
      "invalid JSON syntax" (by decide) rfl⟩⟩

/-! ## Round-trip lemmas: the encoder's output parses back -/

/-- `hexVal` inverts `hexDigitLower` on digit values. -/
theorem hexVal_hexDigitLower (n : Nat) (h : n < 16) : hexVal (hexDigitLower n) = some n := by
  interval_cases n <;> rfl

/-- `hex4` on `00xy` digit characters. -/
theorem hex4_00 (a b : Nat) (ha : a < 16) (hb : b < 16) :
    hex4 '0' '0' (hexDigitLower a) (hexDigitLower b) = some (16 * a + b) := by
  simp only [hex4, show hexVal '0' = some 0 from rfl, hexVal_hexDigitLower a ha,
    hexVal_hexDigitLower b hb, Option.bind_eq_bind, Option.some_bind, Option.some.injEq,
    bind, pure]
  omega

/-- `hex4` on `202x` digit characters. -/
theorem hex4_202 (b : Nat) (hb : b < 16) :
    hex4 '2' '0' '2' (hexDigitLower b) = some (0x2020 + b) := by
  simp only [hex4, show hexVal '2' = some 2 from rfl, show hexVal '0' = some 0 from rfl,
    hexVal_hexDigitLower b hb, Option.bind_eq_bind, Option.some_bind, Option.some.injEq,
    bind, pure]

set_option maxHeartbeats 2000000 in
/-- A non-surrogate `\u` escape decodes to `Char.ofNat` of its value and the
parse continues after it. -/
theorem parseStrBody_uEsc (f : Nat) (d1 d2 d3 d4 : Char) (n : Nat) (X : List Char)
    (hhex : hex4 d1 d2 d3 d4 = some n) (hn : n < 0xD800) :
    parseStrBody (f + 1) ('\\' :: 'u' :: d1 :: d2 :: d3 :: d4 :: X) =
      (parseStrBody f X).map (fun p => (Char.ofNat n :: p.1, p.2)) := by
  simp only [parseStrBody, hhex, if_true]
  rw [if_neg (by omega : ¬(0xD800 ≤ n ∧ n < 0xE000))]
  rw [if_neg (show ¬('\\' : Char) = '"' by decide)]

set_option maxHeartbeats 1000000 in
/-- The closing quote ends the string body. -/
theorem parseStrBody_close (f : Nat) (X : List Char) :
    parseStrBody (f + 1) ('"' :: X) = some ([], X) := by
  simp only [parseStrBody, if_true]

set_option maxHeartbeats 1000000 in
/-- A plain character is copied. -/
theorem parseStrBody_plain (f : Nat) (c : Char) (X : List Char)
    (h1 : c ≠ '"') (h2 : c ≠ '\\') (h3 : ¬c.toNat < 0x20) :
    parseStrBody (f + 1) (c :: X) = (parseStrBody f X).map (fun p => (c :: p.1, p.2)) := by
  simp only [parseStrBody]
  rw [if_neg h1, if_neg h2, if_neg h3]

set_option maxHeartbeats 1000000 in
/-- The `\"` escape. -/
theorem parseStrBody_escQ (f : Nat) (X : List Char) :
    parseStrBody (f + 1) ('\\' :: '"' :: X) =
      (parseStrBody f X).map (fun p => ('"' :: p.1, p.2)) := by
  simp only [parseStrBody, if_true]
  rw [if_neg (show ¬('\\' : Char) = '"' by decide)]

set_option maxHeartbeats 1000000 in
/-- The `\\` escape. -/
theorem parseStrBody_escB (f : Nat) (X : List Char) :
    parseStrBody (f + 1) ('\\' :: '\\' :: X) =
      (parseStrBody f X).map (fun p => ('\\' :: p.1, p.2)) := by
  simp only [parseStrBody, if_true]
  rw [if_neg (show ¬('\\' : Char) = '"' by decide)]

set_option maxHeartbeats 1000000 in
/-- The `\n` escape. -/
theorem parseStrBody_escN (f : Nat) (X : List Char) :
    parseStrBody (f + 1) ('\\' :: 'n' :: X) =
      (parseStrBody f X).map (fun p => ('\n' :: p.1, p.2)) := by
  simp only [parseStrBody, if_true]
  rw [if_neg (show ¬('\\' : Char) = '"' by decide)]

set_option maxHeartbeats 1000000 in
/-- The `\r` escape. -/
theorem parseStrBody_escR (f : Nat) (X : List Char) :
    parseStrBody (f + 1) ('\\' :: 'r' :: X) =
      (parseStrBody f X).map (fun p => ('\r' :: p.1, p.2)) := by
  simp only [parseStrBody, if_true]
  rw [if_neg (show ¬('\\' : Char) = '"' by decide)]

set_option maxHeartbeats 1000000 in
/-- The `\t` escape. -/
theorem parseStrBody_escT (f : Nat) (X : List Char) :
    parseStrBody (f + 1) ('\\' :: 't' :: X) =
      (parseStrBody f X).map (fun p => ('\t' :: p.1, p.2)) := by
  simp only [parseStrBody, if_true]
  rw [if_neg (show ¬('\\' : Char) = '"' by decide)]

set_option maxHeartbeats 2000000 in
/-- The encoder's output parses back: the decoded string-body of
`escList l ++ '"' :: rest` is exactly `l`, with `rest` remaining. -/
theorem parseStrBody_escList :
    ∀ (l : List Char) (g : Nat) (rest : List Char),
      parseStrBody (g + l.length + 1) (escList l ++ '"' :: rest) = some (l, rest)
  | [], g, rest => by
    simpa [escList] using parseStrBody_close (g + 0) rest
  | c :: l, g, rest => by
    have ih := parseStrBody_escList l g rest
    rw [show escList (c :: l) = escChar c ++ escList l from rfl,
      show (c :: l).length = l.length + 1 from rfl,
      show g + (l.length + 1) + 1 = (g + l.length + 1) + 1 by omega,
      List.append_assoc]
    by_cases h1 : c = '"'
    · subst h1
      rw [show escChar '"' = ['\\', '"'] from rfl]
      show parseStrBody ((g + l.length + 1) + 1) ('\\' :: '"' :: (escList l ++ '"' :: rest)) = _
      rw [parseStrBody_escQ, ih]
      rfl
    · by_cases h2 : c = '\\'
      · subst h2
        rw [show escChar '\\' = ['\\', '\\'] from rfl]
        show parseStrBody ((g + l.length + 1) + 1) ('\\' :: '\\' :: (escList l ++ '"' :: rest)) = _
        rw [parseStrBody_escB, ih]
        rfl
      · by_cases h3 : c = '\n'
        · subst h3
          rw [show escChar '\n' = ['\\', 'n'] from rfl]
          show parseStrBody ((g + l.length + 1) + 1) ('\\' :: 'n' :: (escList l ++ '"' :: rest)) = _
          rw [parseStrBody_escN, ih]
          rfl
        · by_cases h4 : c = '\r'
          · subst h4
            rw [show escChar '\r' = ['\\', 'r'] from rfl]
            show parseStrBody ((g + l.length + 1) + 1) ('\\' :: 'r' :: (escList l ++ '"' :: rest)) = _
            rw [parseStrBody_escR, ih]
            rfl
          · by_cases h5 : c = '\t'
            · subst h5
              rw [show escChar '\t' = ['\\', 't'] from rfl]
              show parseStrBody ((g + l.length + 1) + 1) ('\\' :: 't' :: (escList l ++ '"' :: rest)) = _
              rw [parseStrBody_escT, ih]
              rfl
            · by_cases h6 : c.toNat < 0x20
              · have hesc : escChar c =
                    ['\\', 'u', '0', '0', hexDigitLower (c.toNat / 16), hexDigitLower (c.toNat % 16)] := by
                  simp only [escChar]
                  rw [if_neg h1, if_neg h2, if_neg h3, if_neg h4, if_neg h5, if_pos h6]
                have hhex : hex4 '0' '0' (hexDigitLower (c.toNat / 16)) (hexDigitLower (c.toNat % 16)) =
                    some c.toNat := by
                  rw [hex4_00 _ _ (by omega) (by omega)]
                  congr 1
                  omega
                rw [hesc]
                show parseStrBody ((g + l.length + 1) + 1)
                  ('\\' :: 'u' :: '0' :: '0' :: hexDigitLower (c.toNat / 16) ::
                    hexDigitLower (c.toNat % 16) :: (escList l ++ '"' :: rest)) = _
                rw [parseStrBody_uEsc _ _ _ _ _ _ _ hhex (by omega), ih]
                simp [Char.ofNat_toNat]
              · by_cases h7 : c = '<' ∨ c = '>' ∨ c = '&'
                · rcases h7 with rfl | rfl | rfl
                  · rw [show escChar '<' = ['\\', 'u', '0', '0', '3', 'c'] from rfl]
                    show parseStrBody ((g + l.length + 1) + 1)
                      ('\\' :: 'u' :: '0' :: '0' :: '3' :: 'c' :: (escList l ++ '"' :: rest)) = _
                    rw [parseStrBody_uEsc _ '0' '0' '3' 'c' 60 _ rfl (by omega), ih]
                    rfl
                  · rw [show escChar '>' = ['\\', 'u', '0', '0', '3', 'e'] from rfl]
                    show parseStrBody ((g + l.length + 1) + 1)
                      ('\\' :: 'u' :: '0' :: '0' :: '3' :: 'e' :: (escList l ++ '"' :: rest)) = _
                    rw [parseStrBody_uEsc _ '0' '0' '3' 'e' 62 _ rfl (by omega), ih]
                    rfl
                  · rw [show escChar '&' = ['\\', 'u', '0', '0', '2', '6'] from rfl]
                    show parseStrBody ((g + l.length + 1) + 1)
                      ('\\' :: 'u' :: '0' :: '0' :: '2' :: '6' :: (escList l ++ '"' :: rest)) = _
                    rw [parseStrBody_uEsc _ '0' '0' '2' '6' 38 _ rfl (by omega), ih]
                    rfl
                · by_cases h8 : c.toNat = 0x2028 ∨ c.toNat = 0x2029
                  · have hesc : escChar c =
                        ['\\', 'u', '2', '0', '2', hexDigitLower (c.toNat % 16)] := by
                      simp only [escChar]
                      rw [if_neg h1, if_neg h2, if_neg h3, if_neg h4, if_neg h5, if_neg h6,
                        if_neg h7, if_pos h8]
                    have hhex : hex4 '2' '0' '2' (hexDigitLower (c.toNat % 16)) = some c.toNat := by
                      rw [hex4_202 _ (by omega)]
                      congr 1
                      omega
                    rw [hesc]
                    show parseStrBody ((g + l.length + 1) + 1)
                      ('\\' :: 'u' :: '2' :: '0' :: '2' :: hexDigitLower (c.toNat % 16) ::
                        (escList l ++ '"' :: rest)) = _
                    rw [parseStrBody_uEsc _ _ _ _ _ _ _ hhex (by omega), ih]
                    simp [Char.ofNat_toNat]
                  · have hesc : escChar c = [c] := by
                      simp only [escChar]
                      rw [if_neg h1, if_neg h2, if_neg h3, if_neg h4, if_neg h5, if_neg h6,
                        if_neg h7, if_neg h8]
                    rw [hesc]
                    show parseStrBody ((g + l.length + 1) + 1) (c :: (escList l ++ '"' :: rest)) = _
                    rw [parseStrBody_plain _ _ _ h1 h2 h6, ih]
                    rfl

/-- Escaping does not shorten a string. -/
theorem escList_length : ∀ l : List Char, l.length ≤ (escList l).length
  | [] => Nat.le_refl 0
  | c :: l => by
    have h1 : 1 ≤ (escChar c).length := by
      simp only [escChar]
      split_ifs <;> simp
    have := escList_length l
    simp only [escList, List.length_append, List.length_cons]
    omega

/-- `parseStr` (with its locally computed fuel) decodes an encoded body. -/
theorem parseStr_escList (l : List Char) (rest : List Char) :
    parseStr (escList l ++ '"' :: rest) = some (l, rest) := by
  obtain ⟨g, hg⟩ : ∃ g, (escList l ++ '"' :: rest).length + 1 = g + l.length + 1 :=
    ⟨(escList l).length - l.length + rest.length + 1, by
      have := escList_length l
      simp only [List.length_append, List.length_cons]
      omega⟩
  rw [parseStr, hg]
  exact parseStrBody_escList l g rest

/-- `skipWs` is the identity on inputs starting with a non-whitespace
character. -/
theorem skipWs_cons (c : Char) (l : List Char) (h : isJsonWs c = false) :
    skipWs (c :: l) = c :: l := by
  simp [skipWs, List.dropWhile_cons, h]

set_option maxHeartbeats 2000000 in
/-- A JSON string value at the head of the input parses to `jstr`. -/
theorem parseJVal_str (f : Nat) (s : String) (rest : List Char) :
    parseJVal (f + 1) (goEncodeString s ++ rest) = some (.jstr s, rest) := by
  rw [show goEncodeString s ++ rest = '"' :: (escList s.toList ++ '"' :: rest) by
    simp [goEncodeString, List.append_assoc]]
  simp only [parseJVal, skipWs_cons '"' (escList s.toList ++ '"' :: rest) (by decide)]
  simp [parseStr_escList s.toList rest]
  exact ⟨s.data, parseStr_escList s.data rest, rfl⟩

set_option maxHeartbeats 2000000 in
/-- A non-empty encoded tag list parses element-wise to `jstr` values. -/
theorem parseElems_tags :
    ∀ (ts : List String) (t : String) (g : Nat) (rest : List Char),
      parseElems (g + ts.length + 2) (encTagList (t :: ts) ++ ']' :: rest) =
        some ((t :: ts).map JVal.jstr, rest)
  | [], t, g, rest => by
    rw [show encTagList [t] = goEncodeString t from rfl]
    rw [show g + ([] : List String).length + 2 = (g + 0 + 1) + 1 from rfl]
    simp only [parseElems]
    rw [parseJVal_str (g + 0) t (']' :: rest)]
    simp [skipWs_cons ']' rest (by decide)]
  | a :: as, t, g, rest => by
    have ih := parseElems_tags as a g rest
    rw [show encTagList (t :: a :: as) = goEncodeString t ++ [','] ++ encTagList (a :: as) from rfl]
    rw [show g + (a :: as).length + 2 = (g + as.length + 2) + 1 by
      simp only [List.length_cons]; omega]
    rw [List.append_assoc, List.append_assoc]
    conv_lhs => rw [parseElems]
    rw [show ([','] : List Char) ++ (encTagList (a :: as) ++ ']' :: rest) =
      ',' :: (encTagList (a :: as) ++ ']' :: rest) from rfl]
    rw [parseJVal_str (g + as.length + 1) t _]
    simp only [skipWs_cons ',' _ (by decide)]
    rw [ih]
    rfl

set_option maxHeartbeats 1000000 in
/-- One step of `parseJVal` on an opening brace. -/
theorem parseJVal_open_brace (f : Nat) (r : List Char) :
    parseJVal (f + 1) ('{' :: r) =
      (match skipWs r with
        | '}' :: r2 => some (JVal.jobj [], r2)
        | r2 => (parseMembers f r2).map (fun p => (JVal.jobj p.1, p.2))) := rfl

set_option maxHeartbeats 1000000 in
/-- One step of `parseJVal` on an opening bracket. -/
theorem parseJVal_open_bracket (f : Nat) (r : List Char) :
    parseJVal (f + 1) ('[' :: r) =
      (match skipWs r with
        | ']' :: r2 => some (JVal.jarr [], r2)
        | r2 => (parseElems f r2).map (fun p => (JVal.jarr p.1, p.2))) := rfl

set_option maxHeartbeats 2000000 in
/-- An encoded tags array at the head of the input parses to `jarr` of
`jstr` values. -/
theorem parseJVal_tags (g : Nat) (ts : List String) (rest : List Char) :
    parseJVal (g + ts.length + 2) ('[' :: (encTagList ts ++ ']' :: rest)) =
      some (.jarr (ts.map JVal.jstr), rest) := by
  rcases ts with _ | ⟨t, ts'⟩
  · rw [show g + ([] : List String).length + 2 = (g + 0 + 1) + 1 from rfl]
    rw [parseJVal_open_bracket]
    simp [encTagList, skipWs_cons ']' rest (by decide)]
  · obtain ⟨Y, hY⟩ : ∃ Y, encTagList (t :: ts') ++ ']' :: rest = '"' :: Y := by
      rcases ts' with _ | ⟨a, as⟩
      · exact ⟨escList t.data ++ '"' :: ']' :: rest, by
          simp [encTagList, goEncodeString, List.append_assoc]⟩
      · exact ⟨escList t.data ++ '"' :: ',' :: (encTagList (a :: as) ++ ']' :: rest), by
          simp [encTagList, goEncodeString, List.append_assoc]⟩
    rw [show g + (t :: ts').length + 2 = (g + ts'.length + 2) + 1 by
      simp only [List.length_cons]; omega]
    rw [parseJVal_open_bracket]
    rw [hY, skipWs_cons '"' Y (by decide)]
    rw [show (match ('"' :: Y : List Char) with
      | ']' :: r2 => some (JVal.jarr [], r2)
      | r2 => (parseElems (g + ts'.length + 2) r2).map (fun p => (JVal.jarr p.1, p.2))) =
      (parseElems (g + ts'.length + 2) ('"' :: Y)).map (fun p => (JVal.jarr p.1, p.2)) from rfl]
    rw [← hY, parseElems_tags ts' t g rest]
    simp

set_option maxHeartbeats 1000000 in
/-- One step of `parseMembers` on a key's opening quote. -/
theorem parseMembers_quote (f : Nat) (r : List Char) :
    parseMembers (f + 1) ('"' :: r) =
      (match parseStr r with
        | none => none
        | some (key, r1) =>
          match skipWs r1 with
          | ':' :: r2 =>
            match parseJVal f r2 with
            | none => none
            | some (v, r3) =>
              match skipWs r3 with
              | ',' :: r4 =>
                (parseMembers f (skipWs r4)).map
                  (fun p => ((String.mk key, v) :: p.1, p.2))
              | '}' :: r4 => some ([(String.mk key, v)], r4)
              | _ => none
          | _ => none) := rfl

set_option maxHeartbeats 2000000 in
/-- One object member with an escape-free key and a string value. -/
theorem parseMembers_strMember (f : Nat) (key : List Char) (s : String) (Z : List Char)
    (hkey : escList key = key) :
    parseMembers ((f + 1) + 1) ('"' :: (key ++ '"' :: ':' :: (goEncodeString s ++ Z))) =
      (match skipWs Z with
        | ',' :: r4 =>
          (parseMembers (f + 1) (skipWs r4)).map
            (fun p => ((String.mk key, JVal.jstr s) :: p.1, p.2))
        | '}' :: r4 => some ([(String.mk key, JVal.jstr s)], r4)
        | _ => none) := by
  rw [parseMembers_quote]
  rw [show (key ++ '"' :: ':' :: (goEncodeString s ++ Z)) =
    (escList key ++ '"' :: (':' :: (goEncodeString s ++ Z))) by rw [hkey]]
  rw [parseStr_escList key (':' :: (goEncodeString s ++ Z))]
  simp [skipWs_cons ':' (goEncodeString s ++ Z) (by decide), parseJVal_str f s Z]

set_option maxHeartbeats 4000000 in
/-- The three members of an encoded article object parse to the expected
member list, consuming the closing brace. -/
theorem parseMembers_article (g : Nat) (t c : String) (ts : List String) (rest : List Char) :
    parseMembers ((((g + ts.length + 2) + 1) + 1) + 1)
      ('"' :: (['t', 'i', 't', 'l', 'e'] ++ '"' :: ':' :: (goEncodeString t ++
        (',' :: '"' :: (['c', 'o', 'n', 't', 'e', 'n', 't'] ++ '"' :: ':' :: (goEncodeString c ++
          (',' :: '"' :: (['t', 'a', 'g', 's'] ++ '"' :: ':' ::
            ('[' :: (encTagList ts ++ ']' :: '}' :: rest)))))))))) =
      some ([("title", JVal.jstr t), ("content", JVal.jstr c),
        ("tags", JVal.jarr (ts.map JVal.jstr))], rest) := by
  have h1 := parseMembers_strMember ((g + ts.length + 2) + 1) ['t', 'i', 't', 'l', 'e'] t
    (',' :: '"' :: (['c', 'o', 'n', 't', 'e', 'n', 't'] ++ '"' :: ':' :: (goEncodeString c ++
      (',' :: '"' :: (['t', 'a', 'g', 's'] ++ '"' :: ':' ::
        ('[' :: (encTagList ts ++ ']' :: '}' :: rest))))))) rfl
  have h2 := parseMembers_strMember (g + ts.length + 2) ['c', 'o', 'n', 't', 'e', 'n', 't'] c
    (',' :: '"' :: (['t', 'a', 'g', 's'] ++ '"' :: ':' ::
      ('[' :: (encTagList ts ++ ']' :: '}' :: rest)))) rfl
  have h3 := parseMembers_quote (g + ts.length + 2)
    (['t', 'a', 'g', 's'] ++ '"' :: ':' :: ('[' :: (encTagList ts ++ ']' :: '}' :: rest)))
  have h3' : parseStr (['t', 'a', 'g', 's'] ++ '"' :: ':' ::
      ('[' :: (encTagList ts ++ ']' :: '}' :: rest))) =
      some (['t', 'a', 'g', 's'], ':' :: ('[' :: (encTagList ts ++ ']' :: '}' :: rest))) := by
    have h := parseStr_escList ['t', 'a', 'g', 's']
      (':' :: ('[' :: (encTagList ts ++ ']' :: '}' :: rest)))
    rwa [show escList ['t', 'a', 'g', 's'] = ['t', 'a', 'g', 's'] from rfl] at h
  have h4 := parseJVal_tags g ts ('}' :: rest)
  simp only [List.cons_append, List.nil_append] at h1 h2 h3 h3'
  simp [h1, h2, h3, h3', h4, skipWs_cons, isJsonWs,
    show String.mk ['t', 'i', 't', 'l', 'e'] = "title" from rfl,
    show String.mk ['c', 'o', 'n', 't', 'e', 'n', 't'] = "content" from rfl,
    show String.mk ['t', 'a', 'g', 's'] = "tags" from rfl]

set_option maxHeartbeats 4000000 in
/-- A marshalled article followed by any rest parses as the expected
three-member JSON object. -/
theorem parseJVal_marshal (g : Nat) (t c : String) (ts : List String) (rest : List Char) :
    parseJVal (((((g + ts.length + 2) + 1) + 1) + 1) + 1) (goMarshalArticle t c ts ++ rest) =
      some (.jobj [("title", JVal.jstr t), ("content", JVal.jstr c),
        ("tags", JVal.jarr (ts.map JVal.jstr))], rest) := by
  have hm := parseMembers_article g t c ts rest
  simp only [List.cons_append, List.nil_append] at hm
  simp [goMarshalArticle, parseJVal_open_brace, hm, skipWs_cons, isJsonWs, List.append_assoc]

/-- Tag-list encodings are at least as long as the tag list. -/
theorem encTagList_length : ∀ ts : List String, ts.length ≤ (encTagList ts).length
  | [] => Nat.le_refl 0
  | [t] => by simp [encTagList, goEncodeString]
  | t :: a :: as => by
    have ih := encTagList_length (a :: as)
    simp only [encTagList, goEncodeString, List.length_append, List.length_cons] at ih ⊢
    omega

/-- The elements of an encoded tag array decode back to the tags
(generalized over the `mapM` accumulator). -/
theorem mapM_loop_tagElems : ∀ (ts : List String) (acc : List String),
    List.mapM.loop decodeTagElem (ts.map JVal.jstr) acc = Except.ok (acc.reverse ++ ts)
  | [], acc => by
    simp [List.mapM.loop, show ∀ x : List String, (pure x : Except String (List String)) =
      Except.ok x from fun _ => rfl]
  | t :: ts, acc => by
    simp [List.mapM.loop, decodeTagElem, mapM_loop_tagElems ts (t :: acc),
      show ∀ (x : String) (k : String → Except String (List String)),
        (Except.ok x >>= k : Except String (List String)) = k x from fun _ _ => rfl]

/-- The elements of an encoded tag array decode back to the tags. -/
theorem mapM_tagElems (ts : List String) :
    (ts.map JVal.jstr).mapM decodeTagElem = Except.ok ts := by
  simpa [List.mapM] using mapM_loop_tagElems ts []

/-- Decoding the parsed three-member object yields the article. -/
theorem decodeArticleVal_article (t c : String) (ts : List String) :
    decodeArticleVal (.jobj [("title", JVal.jstr t), ("content", JVal.jstr c),
        ("tags", JVal.jarr (ts.map JVal.jstr))]) = .ok ⟨t, c, ts⟩ := by
  have htags : List.mapM.loop decodeTagElem (List.map JVal.jstr ts) [] = Except.ok ts := by
    simpa using mapM_loop_tagElems ts []
  simp [decodeArticleVal, List.foldlM, applyMember, decodeStringField, decodeTags, htags,
    Except.map,
    show ∀ (x : Article) (k : Article → Except String Article),
      (Except.ok x >>= k : Except String Article) = k x from fun _ _ => rfl,
    show ∀ x : Article, (pure x : Except String Article) = Except.ok x from fun _ => rfl,
    show foldEq "title" "title" = true from rfl,
    show foldEq "content" "title" = false from rfl,
    show foldEq "content" "content" = true from rfl,
    show foldEq "tags" "title" = false from rfl,
    show foldEq "tags" "content" = false from rfl,
    show foldEq "tags" "tags" = true from rfl]

/-- `json.Unmarshal` of a marshalled article recovers the article exactly. -/
theorem unmarshalArticle_marshal (t c : String) (ts : List String) :
    unmarshalArticle (goMarshalArticle t c ts) = .ok ⟨t, c, ts⟩ := by
  have hlen : ts.length + 2 ≤ (goMarshalArticle t c ts).length := by
    have h := encTagList_length ts
    simp only [goMarshalArticle, goEncodeString, List.length_append, List.length_cons,
      List.length_nil]
    omega
  obtain ⟨g, hg⟩ : ∃ g,
      jsonFuel (goMarshalArticle t c ts) = ((((g + ts.length + 2) + 1) + 1) + 1) + 1 :=
    ⟨2 * (goMarshalArticle t c ts).length + 4 - (ts.length + 6), by simp [jsonFuel]; omega⟩
  have hp := parseJVal_marshal g t c ts []
  rw [List.append_nil] at hp
  rw [unmarshalArticle, parseTopLevel, hg, hp]
  simp [skipWs, decodeArticleVal_article]

/-- A marshalled article starts with an opening brace. -/
theorem goMarshalArticle_head (t c : String) (ts : List String) :
    ∃ T, goMarshalArticle t c ts = '{' :: T :=
  ⟨['"', 't', 'i', 't', 'l', 'e', '"', ':'] ++
      (goEncodeString t ++
        ([',', '"', 'c', 'o', 'n', 't', 'e', 'n', 't', '"', ':'] ++
          (goEncodeString c ++
            ([',', '"', 't', 'a', 'g', 's', '"', ':', '['] ++
              (encTagList ts ++ [']', '}']))))), by
    simp [goMarshalArticle, List.append_assoc]⟩

/-- A marshalled article ends with a closing brace. -/
theorem goMarshalArticle_last (t c : String) (ts : List String) :
    ∃ F, goMarshalArticle t c ts = F ++ ['}'] :=
  ⟨['{', '"', 't', 'i', 't', 'l', 'e', '"', ':'] ++
      (goEncodeString t ++
        ([',', '"', 'c', 'o', 'n', 't', 'e', 'n', 't', '"', ':'] ++
          (goEncodeString c ++
            ([',', '"', 't', 'a', 'g', 's', '"', ':', '['] ++
              (encTagList ts ++ [']']))))), by
    simp [goMarshalArticle, List.append_assoc]⟩

set_option maxHeartbeats 2000000 in
/-- C6: `parseResponse` applied to the prose-wrapped JSON serialization of a
title/content/tags value returns the article with exactly those fields, for
every title, content, tag list and brace-free leading/trailing prose. -/
theorem parseResponse_roundtrip (t c : String) (ts : List String) (pre post : List Char)
    (hpre1 : '{' ∉ pre) (_hpre2 : '}' ∉ pre) (_hpost1 : '{' ∉ post) (hpost2 : '}' ∉ post) :
    parseResponse (String.mk (pre ++ goMarshalArticle t c ts ++ post)) = .ok ⟨t, c, ts⟩ := by
  obtain ⟨T, hT⟩ := goMarshalArticle_head t c ts
  obtain ⟨F, hF⟩ := goMarshalArticle_last t c ts
  have hserlen : 1 ≤ (goMarshalArticle t c ts).length := by rw [hT]; simp
  have hassoc : pre ++ goMarshalArticle t c ts ++ post =
      pre ++ (goMarshalArticle t c ts ++ post) := List.append_assoc pre _ post
  have hfi : (pre ++ (goMarshalArticle t c ts ++ post)).findIdx? (fun ch => ch = '{') =
      some pre.length := by
    rw [hT, List.cons_append]
    exact findIdx_concat '{' pre hpre1 (T ++ post)
  have hrev : (pre ++ (goMarshalArticle t c ts ++ post)).reverse.findIdx? (fun ch => ch = '}') =
      some post.length := by
    rw [hF]
    have hshape : (pre ++ (F ++ ['}'] ++ post)).reverse =
        post.reverse ++ '}' :: (F.reverse ++ pre.reverse) := by
      simp [List.reverse_append]
    rw [hshape, findIdx_concat '}' post.reverse
      (fun hm => hpost2 (List.mem_reverse.mp hm)) (F.reverse ++ pre.reverse)]
    simp
  have hbi : braceIdx (String.mk (pre ++ goMarshalArticle t c ts ++ post)) =
      some (pre.length, pre.length + (goMarshalArticle t c ts).length - 1) := by
    simp only [braceIdx]
    rw [show (String.mk (pre ++ goMarshalArticle t c ts ++ post)).toList =
      pre ++ goMarshalArticle t c ts ++ post from rfl]
    rw [hassoc, hfi, hrev]
    simp [List.length_append]
    omega
  have hspan : (((String.mk (pre ++ goMarshalArticle t c ts ++ post)).toList.drop
      pre.length).take
      (pre.length + (goMarshalArticle t c ts).length - 1 + 1 - pre.length)) =
      goMarshalArticle t c ts := by
    rw [show (String.mk (pre ++ goMarshalArticle t c ts ++ post)).toList =
      pre ++ goMarshalArticle t c ts ++ post from rfl]
    rw [hassoc, List.drop_left' rfl]
    rw [show pre.length + (goMarshalArticle t c ts).length - 1 + 1 - pre.length =
      (goMarshalArticle t c ts).length by omega]
    exact List.take_left' rfl
  rw [parseResponse, hbi]
  simp only [show pre.length ≤ pre.length + (goMarshalArticle t c ts).length - 1 + 1 from
    by omega, hspan, unmarshalArticle_marshal, if_true]

/-- Witness for `parseResponse_roundtrip`: a title with a quote, an HTML
bracket and a newline in the content, wrapped in prose. -/
theorem parseResponse_roundtrip_witness :
    ('{' ∉ "Sure! Here it is: ".toList ∧ '}' ∉ "Sure! Here it is: ".toList ∧
        '{' ∉ " Enjoy.".toList ∧ '}' ∉ " Enjoy.".toList) ∧
      parseResponse (String.mk ("Sure! Here it is: ".toList ++
          goMarshalArticle "A \"quoted\" <title>" "# T\n\nBody" ["a", "b"] ++
          " Enjoy.".toList)) =
        .ok ⟨"A \"quoted\" <title>", "# T\n\nBody", ["a", "b"]⟩ :=
  ⟨⟨by decide, by decide, by decide, by decide⟩,
    parseResponse_roundtrip "A \"quoted\" <title>" "# T\n\nBody" ["a", "b"]
      "Sure! Here it is: ".toList " Enjoy.".toList
      (by decide) (by decide) (by decide) (by decide)⟩
